import Mathlib

/-!
Verification development for the USDC payroll orchestration backend.

The definitions below are a shallow embedding of the backend source:

- the binary64 model (`roundDouble`, `jsSum`, `totalAmountMicro`) embeds the
  JavaScript number arithmetic used by `createPayrollRun` in
  `payrollService` (`parseFloat` summation followed by `toFixed(6)`) and by
  `calculateTotalAmount` in shared/src/utils.ts;
- the ledger model (`WorkerRec`, `ItemRec`, `RunRec`, `DB`) embeds the
  relational rows handled through Prisma;
- `createPayrollRun`, `executePayrollRun`, `updatePayoutStatus` embed the
  corresponding methods of `PayrollService`;
- the webhook handlers embed backend/src/routes/webhookRoutes.ts;
- `createUserOperationWithUSDCGas` plus the usdc-gas route embed
  `PaymasterService` and workerRoutes.ts;
- `getAttestation` and `monitorTransfer` embed `CCTPService`.

External collaborators (Circle gateway, gas station, bundler, attestation
service, clock) are supplied as explicit oracle functions, and each
operation additionally returns the sequence of externally visible events it
performs, so that ordering properties (transaction boundaries, dispatch
paths, submissions) can be stated.

Monetary amounts are represented in micro-USDC (the API accepts decimal
strings matching one to six fractional digits, an exact multiple of 10^-6),
so a row amount is a natural number of micro units.
-/

/-! ## Exact rational arithmetic

Unnormalized fractions over the integers.  Every fraction built in this
development has a positive denominator (numerators of divisors are
positive), which the comparison and floor operations rely on.  Avoiding
normalization keeps all operations reducible by the kernel.
-/

deriving instance DecidableEq for Except

/-- ASCII lowercasing of one character, as toLowerCase acts on the ASCII
status strings handled here. -/
def lowerChar (c : Char) : Char :=
  if 65 ≤ c.toNat && c.toNat ≤ 90 then Char.ofNat (c.toNat + 32) else c

/-- ASCII lowercasing of a string. -/
def asciiLower (s : String) : String := ⟨s.data.map lowerChar⟩

/-- An unnormalized fraction num / den; all values constructed in this file
keep den positive. -/
structure Frac where
  num : ℤ
  den : ℤ
deriving DecidableEq

/-- The rational value denoted by a fraction. -/
def Frac.val (a : Frac) : ℚ := (a.num : ℚ) / (a.den : ℚ)

def Frac.ofInt (n : ℤ) : Frac := ⟨n, 1⟩

def Frac.add (a b : Frac) : Frac := ⟨a.num * b.den + b.num * a.den, a.den * b.den⟩

def Frac.sub (a b : Frac) : Frac := ⟨a.num * b.den - b.num * a.den, a.den * b.den⟩

def Frac.mul (a b : Frac) : Frac := ⟨a.num * b.num, a.den * b.den⟩

/-- Division; meaningful here only for divisors with positive numerator, so
the result keeps a positive denominator. -/
def Frac.div (a b : Frac) : Frac := ⟨a.num * b.den, a.den * b.num⟩

/-- Strict comparison, assuming positive denominators. -/
def Frac.blt (a b : Frac) : Bool := a.num * b.den < b.num * a.den

/-- Floor, assuming a positive denominator. -/
def Frac.floor (a : Frac) : ℤ := Int.fdiv a.num a.den

/-! ## Binary64 model

JavaScript numbers are IEEE 754 binary64 values.  A finite double is an
exactly representable rational; `roundDouble` is round-to-nearest, ties to
even, for the normal range (overflow and subnormals never arise at the
inputs considered here).  `toFixedSixMicro` models `x.toFixed(6)` returning
the result scaled by 10^6 as an integer: ECMAScript picks the integer n
minimizing the distance of n / 10^6 to x, preferring the larger n on ties.
-/

/-- Fuel-bounded floor of log2 on naturals; fuel 128 covers every number in
this development. -/
def nlog2 : Nat → Nat → Nat
  | 0, _ => 0
  | fuel + 1, n => if 2 ≤ n then nlog2 fuel (n / 2) + 1 else 0

/-- Integer power of two as a fraction, for signed exponents. -/
def twoPow (e : ℤ) : Frac :=
  if 0 ≤ e then ⟨2 ^ e.toNat, 1⟩ else ⟨1, 2 ^ (-e).toNat⟩

/-- Exponent e with 2 ^ e ≤ q < 2 ^ (e + 1) for a positive fraction q. -/
def qlog2 (q : Frac) : ℤ :=
  let a : ℤ := nlog2 128 q.num.toNat
  let b : ℤ := nlog2 128 q.den.toNat
  let e := a - b
  if q.blt (twoPow e) then e - 1 else if q.blt (twoPow (e + 1)) then e else e + 1

/-- Round a positive fraction to the nearest binary64 value (normal range),
ties to even, as performed by every JavaScript arithmetic operation and by
parseFloat on a decimal literal.  Zero maps to zero; every amount handled
in this development is nonnegative. -/
def roundDouble (q : Frac) : Frac :=
  if q.num = 0 then ⟨0, 1⟩
  else
    let e := qlog2 q
    let ulp := twoPow (e - 52)
    let m := q.div ulp
    let fl := m.floor
    let fr := m.sub (Frac.ofInt fl)
    let n : ℤ :=
      if fr.blt ⟨1, 2⟩ then fl
      else if Frac.blt ⟨1, 2⟩ fr then fl + 1
      else if fl % 2 = 0 then fl else fl + 1
    (Frac.ofInt n).mul ulp

/-- The double produced by `amounts.reduce((sum, w) => sum + parseFloat(w), 0)`
on row amounts given in micro units: each amount string parses to the
nearest double and each running addition rounds again. -/
def jsSum (amountsMicro : List ℕ) : Frac :=
  amountsMicro.foldl
    (fun s a => roundDouble (s.add (roundDouble ⟨(a : ℤ), 1000000⟩))) ⟨0, 1⟩

/-- `x.toFixed(6)` scaled by 10^6: the integer closest to x * 10^6, ties to
the larger integer. -/
def toFixedSixMicro (q : Frac) : ℤ :=
  ((q.mul ⟨1000000, 1⟩).add ⟨1, 2⟩).floor

/-- The totalAmount computed by `createPayrollRun` (and by
`calculateTotalAmount` in shared/src/utils.ts), in micro units: float
summation of the row amounts followed by toFixed(6). -/
def totalAmountMicro (amountsMicro : List ℕ) : ℤ := toFixedSixMicro (jsSum amountsMicro)

/-- The exact decimal sum of the row amounts, in micro units. -/
def exactSumMicro (amountsMicro : List ℕ) : ℤ := (amountsMicro.foldl (· + ·) 0 : ℕ)

/-! ## Ledger data model

Statuses and rows as stored by Prisma.  Timestamps are abstract clock
ticks supplied by the environment.
-/

inductive PayoutStatus
  | pending | processing | completed | failed
deriving DecidableEq

inductive PayrollRunStatus
  | draft | pending | processing | completed | failed
deriving DecidableEq

/-- The PayrollError shape thrown by the service layer. -/
structure PayrollError where
  message : String
  code : String
  statusCode : ℕ
deriving DecidableEq

structure WorkerRec where
  id : ℕ
  name : String
  email : String
  recipientId : Option String
  walletId : Option String
deriving DecidableEq

structure ItemRec where
  id : ℕ
  workerId : ℕ
  amountMicro : ℕ
  chain : String
  status : PayoutStatus
  payoutId : Option String
  transactionHash : Option String
  errorMessage : Option String
  completedAt : Option ℕ
deriving DecidableEq

structure RunRec where
  id : ℕ
  adminId : String
  status : PayrollRunStatus
  totalMicro : ℤ
  totalWorkers : ℕ
  completedAt : Option ℕ
  items : List ItemRec
deriving DecidableEq

/-- The ledger store: workers and payroll runs (items owned by their run),
with a fresh-id counter standing in for generated primary keys. -/
structure DB where
  workers : List WorkerRec
  runs : List RunRec
  nextId : ℕ
deriving DecidableEq

def lookupRun (db : DB) (runId : ℕ) : Option RunRec :=
  db.runs.find? (fun r => r.id == runId)

def lookupWorkerByEmail (db : DB) (email : String) : Option WorkerRec :=
  db.workers.find? (fun w => w.email == email)

def lookupWorkerById (db : DB) (wid : ℕ) : Option WorkerRec :=
  db.workers.find? (fun w => w.id == wid)

def updateWorker (db : DB) (w : WorkerRec) : DB :=
  { db with workers := db.workers.map (fun x => if x.id == w.id then w else x) }

def updateRun (db : DB) (r : RunRec) : DB :=
  { db with runs := db.runs.map (fun x => if x.id == r.id then r else x) }

/-! ## Create: payroll run creation

`createPayrollRun` wraps all row, item and audit writes in one Prisma
transaction; the Circle recipient and programmable wallet provisioning
calls are issued from inside that transaction callback, each in its own
try/catch whose failure is only logged.  The trace records the transaction
boundaries, the local writes, and the external gateway calls.
-/

inductive CEvent
  | txBegin
  | txCommit
  | dbWrite (table : String)
  | extCreateRecipient (email : String)
  | extCreateWallet (workerId : ℕ)
deriving DecidableEq

def CEvent.isExternalCall : CEvent → Bool
  | .extCreateRecipient _ => true
  | .extCreateWallet _ => true
  | _ => false

/-- Scan step tracking (inTransaction, sawExternalCallInsideTx). -/
def insideScanStep (st : Bool × Bool) (e : CEvent) : Bool × Bool :=
  match e with
  | .txBegin => (true, st.2)
  | .txCommit => (false, st.2)
  | e' => (st.1, st.2 || (e'.isExternalCall && st.1))

/-- True when some external gateway call happens while the transaction is
open (between txBegin and txCommit). -/
def extCallInsideTx (tr : List CEvent) : Bool :=
  (tr.foldl insideScanStep (false, false)).2

/-- Scan step tracking (inTransaction, sawExternalCallOutsideTx). -/
def outsideScanStep (st : Bool × Bool) (e : CEvent) : Bool × Bool :=
  match e with
  | .txBegin => (true, st.2)
  | .txCommit => (false, st.2)
  | e' => (st.1, st.2 || (e'.isExternalCall && !st.1))

/-- True when some external gateway call happens while no transaction is
open (before txBegin or after txCommit). -/
def extCallOutsideTx (tr : List CEvent) : Bool :=
  (tr.foldl outsideScanStep (false, false)).2

/-- One worker row of a create request; the amount is in micro USDC. -/
structure RowReq where
  name : String
  email : String
  amountMicro : ℕ
  chain : String
deriving DecidableEq

/-- External collaborators of createPayrollRun: the Circle recipient and
programmable wallet provisioning calls, plus the clock. -/
structure CreateEnv where
  createRecipient : String → Except String String
  createWallet : ℕ → Except String String
  now : ℕ

/-- Supported chain identifiers of the SupportedChain enum. -/
def supportedChains : List String :=
  ["ethereum", "arbitrum", "base", "avalanche", "polygon"]

/-- CreatePayrollRunRequestSchema: each element needs a nonempty name, an
email and a supported chain; the workers array itself has no minimum
length. -/
def createRequestAccepted (rows : List RowReq) : Bool :=
  rows.all (fun r =>
    decide (0 < r.name.length) && r.email.contains '@' && supportedChains.contains r.chain)

/-- Per-row processing inside the transaction callback: find or create the
worker, best-effort provisioning of a Circle recipient and of a
programmable wallet for a newly created worker (failures only logged),
then the PENDING payroll item and its audit record. -/
def createRows (env : CreateEnv) :
    DB → List RowReq → DB × List ItemRec × List CEvent
  | db, [] => (db, [], [])
  | db, row :: rest =>
    let step : DB × WorkerRec × List CEvent :=
      match lookupWorkerByEmail db row.email with
      | some w => (db, w, [])
      | none =>
        let w0 : WorkerRec := ⟨db.nextId, row.name, row.email, none, none⟩
        let dbA : DB := { db with workers := db.workers ++ [w0], nextId := db.nextId + 1 }
        let stepB : DB × WorkerRec × List CEvent :=
          match env.createRecipient row.email with
          | .ok rid =>
            let w1 := { w0 with recipientId := some rid }
            (updateWorker dbA w1, w1,
             [CEvent.extCreateRecipient row.email, .dbWrite "worker.update"])
          | .error _ => (dbA, w0, [CEvent.extCreateRecipient row.email])
        let stepC : DB × WorkerRec × List CEvent :=
          match env.createWallet stepB.2.1.id with
          | .ok wid =>
            let w2 := { stepB.2.1 with walletId := some wid }
            (updateWorker stepB.1 w2, w2,
             [CEvent.extCreateWallet stepB.2.1.id, .dbWrite "worker.update"])
          | .error _ => (stepB.1, stepB.2.1, [CEvent.extCreateWallet stepB.2.1.id])
        (stepC.1, stepC.2.1, [CEvent.dbWrite "worker.create"] ++ stepB.2.2 ++ stepC.2.2)
    let db1 := step.1
    let item : ItemRec :=
      ⟨db1.nextId, step.2.1.id, row.amountMicro, row.chain, .pending, none, none, none, none⟩
    let db2 : DB := { db1 with nextId := db1.nextId + 1 }
    let rec' := createRows env db2 rest
    (rec'.1, item :: rec'.2.1,
     step.2.2 ++ [CEvent.dbWrite "payrollItem.create", .dbWrite "auditLog.create"] ++ rec'.2.2)

structure CreateResult where
  run : RunRec
  items : List ItemRec
deriving DecidableEq

/-- PayrollService.createPayrollRun: computes the float total, creates the
DRAFT run, processes every row, then flips the run to PENDING and writes
the run audit record, all inside one transaction. -/
def createPayrollRun (env : CreateEnv) (db : DB) (adminId : String) (rows : List RowReq) :
    Except PayrollError CreateResult × DB × List CEvent :=
  let total := totalAmountMicro (rows.map (·.amountMicro))
  let runId := db.nextId
  let run0 : RunRec := ⟨runId, adminId, .draft, total, rows.length, none, []⟩
  let db0 : DB := { db with runs := db.runs ++ [run0], nextId := db.nextId + 1 }
  let stepRows := createRows env db0 rows
  let run1 : RunRec := { run0 with status := .pending, items := stepRows.2.1 }
  let db2 := updateRun stepRows.1 run1
  (.ok ⟨run1, stepRows.2.1⟩, db2,
    [CEvent.txBegin, .dbWrite "payrollRun.create"] ++ stepRows.2.2 ++
      [CEvent.dbWrite "payrollRun.update", .dbWrite "auditLog.create", .txCommit])

/-! ## Execute: payroll run execution

`executePayrollRun` loads the run with its items and their workers, checks
the PENDING precondition, flips the run to PROCESSING, dispatches every
item independently (each in its own try/catch), and finally computes the
run status from the per-item results.  The top-level catch marks the run
FAILED best-effort before rethrowing; a thrown precondition error also
reaches that catch.
-/

structure PayoutRes where
  id : String
  transactionHash : Option String
deriving DecidableEq

/-- External collaborators of executePayrollRun: the gas station gasless
transfer and the Circle payout, keyed by the item being dispatched, plus
the clock. -/
structure ExecEnv where
  gaslessTransfer : ℕ → Except String PayoutRes
  circlePayout : ℕ → Except String PayoutRes
  now : ℕ

inductive EEvent
  | itemProcessing (itemId : ℕ)
  | gaslessCall (itemId : ℕ)
  | circlePayoutCall (itemId : ℕ)
  | itemCompleted (itemId : ℕ)
  | itemFailed (itemId : ℕ)
  | runStatus (s : PayrollRunStatus)
deriving DecidableEq

def EEvent.isDispatchCall : EEvent → Bool
  | .gaslessCall _ => true
  | .circlePayoutCall _ => true
  | _ => false

/-- Dispatch of one payroll item: mark PROCESSING, then the wallet-based
gasless path if the worker has a wallet, else the Circle payout path if the
worker has a recipient, else fail the item; on success mark COMPLETED with
payout identifiers and timestamp, on failure mark FAILED with the error
message.  The Circle payout path returns no transaction hash (it arrives
later via webhook), and Prisma skips an undefined transactionHash update.
Returns the stored item, the result row, and the events. -/
def processItem (env : ExecEnv) (worker : WorkerRec) (item : ItemRec) :
    ItemRec × Bool × List EEvent :=
  let item1 := { item with status := PayoutStatus.processing }
  let dispatch : Except String PayoutRes × List EEvent :=
    match worker.walletId with
    | some _ => (env.gaslessTransfer item.id, [EEvent.gaslessCall item.id])
    | none =>
      match worker.recipientId with
      | some _ =>
        match env.circlePayout item.id with
        | .ok p => (.ok { p with transactionHash := none }, [EEvent.circlePayoutCall item.id])
        | .error e => (.error e, [EEvent.circlePayoutCall item.id])
      | none => (.error "Worker has no wallet or recipient configured", [])
  match dispatch with
  | (.ok p, ev) =>
    ({ item1 with
        status := PayoutStatus.completed
        payoutId := some p.id
        transactionHash :=
          match p.transactionHash with
          | some h => some h
          | none => item1.transactionHash
        completedAt := some env.now },
     true, [EEvent.itemProcessing item.id] ++ ev ++ [EEvent.itemCompleted item.id])
  | (.error msg, ev) =>
    ({ item1 with status := PayoutStatus.failed, errorMessage := some msg },
     false, [EEvent.itemProcessing item.id] ++ ev ++ [EEvent.itemFailed item.id])

/-- The worker joined to an item when the run is fetched with
include worker. -/
def workerFor (db : DB) (item : ItemRec) : WorkerRec :=
  (lookupWorkerById db item.workerId).getD ⟨0, "", "", none, none⟩

/-- The item row stored after dispatch. -/
def dispatchedItem (env : ExecEnv) (db : DB) (item : ItemRec) : ItemRec :=
  (processItem env (workerFor db item) item).1

/-- Whether the dispatch of an item succeeds: the wallet path result when
the worker has a wallet, else the payout path result when the worker has a
recipient, else failure. -/
def itemSucceeds (env : ExecEnv) (db : DB) (item : ItemRec) : Bool :=
  match (workerFor db item).walletId with
  | some _ =>
    match env.gaslessTransfer item.id with
    | .ok _ => true
    | .error _ => false
  | none =>
    match (workerFor db item).recipientId with
    | some _ =>
      match env.circlePayout item.id with
      | .ok _ => true
      | .error _ => false
    | none => false

/-- The per-item loop: every item is processed, failures do not abort the
rest. -/
def processItems (env : ExecEnv) (db : DB) :
    List ItemRec → List ItemRec × List Bool × List EEvent
  | [] => ([], [], [])
  | item :: rest =>
    let one := processItem env (workerFor db item) item
    let more := processItems env db rest
    (one.1 :: more.1, one.2.1 :: more.2.1, one.2.2 ++ more.2.2)

structure ExecSummary where
  runId : ℕ
  finalStatus : PayrollRunStatus
  results : List Bool
deriving DecidableEq

/-- PayrollService.executePayrollRun.  Precondition failures throw a
PayrollError; the top-level catch then best-effort marks the run FAILED
(which rejects silently when the run does not exist) and rethrows. -/
def executePayrollRun (env : ExecEnv) (db : DB) (runId : ℕ) :
    Except PayrollError ExecSummary × DB × List EEvent :=
  match lookupRun db runId with
  | none =>
    (.error ⟨"Payroll run not found", "PAYROLL_RUN_NOT_FOUND", 404⟩, db, [])
  | some run =>
    if run.status ≠ PayrollRunStatus.pending then
      (.error ⟨"Payroll run is not in pending status", "PAYROLL_RUN_NOT_FOUND", 400⟩,
       updateRun db { run with status := PayrollRunStatus.failed }, [])
    else
      let db1 := updateRun db { run with status := PayrollRunStatus.processing }
      let loop := processItems env db run.items
      let completedCount := loop.2.1.count true
      let failedCount := loop.2.1.count false
      let finalStatus :=
        if failedCount = 0 then PayrollRunStatus.completed
        else if completedCount = 0 then PayrollRunStatus.failed
        else PayrollRunStatus.completed
      let db2 := updateRun db1
        { run with status := finalStatus, completedAt := some env.now, items := loop.1 }
      (.ok ⟨runId, finalStatus, loop.2.1⟩, db2,
       [EEvent.runStatus PayrollRunStatus.processing] ++ loop.2.2 ++
         [EEvent.runStatus finalStatus])

/-! ## Webhook reconciliation

`updatePayoutStatus` maps the provider-reported status string to a stored
status and overwrites the matching item unconditionally (no check of the
current status).  The route layer verifies the HMAC signature only on the
Circle endpoint; the cctp, gas-station and paymaster endpoints read no
signature at all.  Moreover webhookRoutes.ts never imports prisma (the
client is exported from config/database.ts and registered only as
globalThis.__prisma, which does not bind the bare identifier), so every
prisma.*.updateMany reference in that module throws a ReferenceError at
run time: each such path lands in its route-level catch and answers 500
without mutating anything.  Only the payouts branches of the Circle route
reach the store, through payrollService (which imports prisma properly).
-/

/-- Status-string mapping of updatePayoutStatus: complete/completed to
COMPLETED, failed/error to FAILED, anything else to PROCESSING. -/
def parseWebhookPayoutStatus (status : String) : PayoutStatus :=
  let s := asciiLower status
  if s = "complete" || s = "completed" then .completed
  else if s = "failed" || s = "error" then .failed
  else .processing

def findItemByPayoutId (db : DB) (payoutId : String) : Option ItemRec :=
  ((db.runs.map RunRec.items).flatten).find? (fun x => x.payoutId == some payoutId)

def updateItemInDB (db : DB) (it : ItemRec) : DB :=
  { db with runs := db.runs.map (fun r =>
      { r with items := r.items.map (fun x => if x.id == it.id then it else x) }) }

/-- PayrollService.updatePayoutStatus: look up the item by payout id (log
and return when absent), map the status string, and overwrite the item;
an undefined transactionHash is skipped by Prisma, and completedAt is set
only when the new status is COMPLETED. -/
def updatePayoutStatus (db : DB) (payoutId : String) (status : String)
    (transactionHash : Option String) (now : ℕ) : DB :=
  match findItemByPayoutId db payoutId with
  | none => db
  | some item =>
    let newStatus := parseWebhookPayoutStatus status
    updateItemInDB db
      { item with
          status := newStatus
          transactionHash :=
            match transactionHash with
            | some h => some h
            | none => item.transactionHash
          completedAt := if newStatus = PayoutStatus.completed then some now else item.completedAt }

/-- crossChainTransfer row. -/
structure TransferRec where
  id : ℕ
  messageHash : String
  attestation : Option String
  status : String
  transactionHash : Option String
  completedAt : Option ℕ
deriving DecidableEq

/-- gasStationTransaction row. -/
structure GasTxRec where
  userOpHash : String
  status : String
  gasUsed : Option String
  transactionHash : Option String
  completedAt : Option ℕ
deriving DecidableEq

/-- The store visible to the webhook routes. -/
structure WebhookDB where
  payroll : DB
  transfers : List TransferRec
  gasTxs : List GasTxRec
deriving DecidableEq

structure HttpResponse where
  statusCode : ℕ
  errorCode : Option String
deriving DecidableEq

/-- verifyWebhookSignature: recompute the HMAC of the raw payload with the
shared secret and compare with the supplied header; a missing header makes
the Buffer conversion throw, which the surrounding catch turns into
false. -/
def verifyWebhookSignature (hmac : String → String → String) (secret : String)
    (payload : String) (signature : Option String) : Bool :=
  match signature with
  | none => false
  | some s => s == "sha256=" ++ hmac secret payload

inductive CircleEvent
  | payoutsCompleted (payoutId : String) (transactionHash : Option String)
  | payoutsFailed (payoutId : String)
  | transfersCompleted (transferId : String) (transactionHash : Option String)
  | transfersFailed (transferId : String) (errorMessage : Option String)
  | otherEvent (eventType : String)
deriving DecidableEq

structure CircleWebhookRequest where
  signature : Option String
  rawPayload : String
  event : CircleEvent
deriving DecidableEq

/-- POST /api/webhooks/circle: the only webhook route that verifies the
HMAC signature; a failed check answers 401 INVALID_SIGNATURE before any
state change.  The payouts branches update the item through
payrollService, where prisma is properly imported; the transfers branches
reference the unbound prisma identifier inside their helper, so they throw
into the route catch and answer 500 WEBHOOK_PROCESSING_ERROR without
mutating.  An unhandled event type is logged and acknowledged. -/
def circleWebhookHandler (hmac : String → String → String) (secret : String) (now : ℕ)
    (db : WebhookDB) (req : CircleWebhookRequest) : HttpResponse × WebhookDB :=
  if !verifyWebhookSignature hmac secret req.rawPayload req.signature then
    (⟨401, some "INVALID_SIGNATURE"⟩, db)
  else
    match req.event with
    | .payoutsCompleted pid tx =>
      (⟨200, none⟩, { db with payroll := updatePayoutStatus db.payroll pid "completed" tx now })
    | .payoutsFailed pid =>
      (⟨200, none⟩, { db with payroll := updatePayoutStatus db.payroll pid "failed" none now })
    | .transfersCompleted _ _ =>
      (⟨500, some "WEBHOOK_PROCESSING_ERROR"⟩, db)
    | .transfersFailed _ _ =>
      (⟨500, some "WEBHOOK_PROCESSING_ERROR"⟩, db)
    | .otherEvent _ => (⟨200, none⟩, db)

structure CctpWebhookRequest where
  signature : Option String
  messageHash : String
  attestation : Option String
  status : String
deriving DecidableEq

/-- POST /api/webhooks/cctp: reads no signature at all.  A body that does
not report an attested status with a truthy attestation skips the update
and is acknowledged with 200; a body that does reaches the unbound prisma
reference, which throws into the catch: 500 CCTP_WEBHOOK_ERROR and no
mutation.  No input yields 401 or a ledger change. -/
def cctpWebhookHandler (db : WebhookDB) (req : CctpWebhookRequest) :
    HttpResponse × WebhookDB :=
  let doUpdate :=
    req.status == "attested" &&
      (match req.attestation with
       | some a => a ≠ ""
       | none => false)
  if doUpdate then
    (⟨500, some "CCTP_WEBHOOK_ERROR"⟩, db)
  else (⟨200, none⟩, db)

structure GasStationWebhookRequest where
  signature : Option String
  transactionId : String
  status : String
  gasUsed : Option String
  transactionHash : Option String
deriving DecidableEq

/-- POST /api/webhooks/gas-station: reads no signature; it always reaches
the unbound prisma reference, so every request is answered 500
GAS_STATION_WEBHOOK_ERROR with no update. -/
def gasStationWebhookHandler (db : WebhookDB) (_req : GasStationWebhookRequest) :
    HttpResponse × WebhookDB :=
  (⟨500, some "GAS_STATION_WEBHOOK_ERROR"⟩, db)

structure PaymasterWebhookRequest where
  signature : Option String
  userOpHash : String
  status : String
  gasUsed : Option String
  gasFeeInUSDC : Option String
  transactionHash : Option String
deriving DecidableEq

/-- POST /api/webhooks/paymaster: reads no signature; like the gas-station
route it always hits the unbound prisma reference and answers 500
PAYMASTER_WEBHOOK_ERROR with no update. -/
def paymasterWebhookHandler (db : WebhookDB) (_req : PaymasterWebhookRequest) :
    HttpResponse × WebhookDB :=
  (⟨500, some "PAYMASTER_WEBHOOK_ERROR"⟩, db)

/-! ## Paymaster: USDC-denominated gas fees

`createUserOperationWithUSDCGas` estimates gas, converts the cost to USDC
through the native token price with the slippage buffer, and throws before
building or submitting anything when the fee exceeds the caller ceiling.
The usdc-gas-transaction route then submits to the bundler and records the
paymaster operation only on success.  (The model computes the conversion
with exact rationals; the source compares the same quantities as binary64
values.)
-/

structure GasEstimate where
  gasLimit : ℕ
  maxFeePerGas : ℕ
  maxPriorityFeePerGas : ℕ
deriving DecidableEq

/-- Environment of the paymaster path: the chain gas estimate, the native
token price, the configured slippage tolerance, and the hash the bundler
assigns on submission. -/
structure PaymasterEnv where
  estimate : GasEstimate
  nativeTokenPriceUSD : Frac
  slippageTolerance : Frac
  bundlerHash : String

/-- calculateUSDCGasFee in micro USDC: gas cost in wei over 10^18, times
the native token price, times one plus the slippage tolerance, rendered by
toFixed(6). -/
def calculateUSDCGasFeeMicro (env : PaymasterEnv) : ℤ :=
  let totalGasCost : ℤ := (env.estimate.gasLimit : ℤ) * (env.estimate.maxFeePerGas : ℤ)
  let gasCostUSD := (Frac.mk totalGasCost (10 ^ 18)).mul env.nativeTokenPriceUSD
  let gasCostUSDC := gasCostUSD.mul ((Frac.ofInt 1).add env.slippageTolerance)
  toFixedSixMicro gasCostUSDC

structure UserOpData where
  sender : String
  feeMicro : ℤ
deriving DecidableEq

/-- PaymasterService.createUserOperationWithUSDCGas: throws when the
computed USDC fee exceeds the caller-supplied maximum, before the permit
and the user operation are built. -/
def createUserOperationWithUSDCGas (env : PaymasterEnv) (walletAddress : String)
    (maxGasFeeUSDCMicro : ℤ) : Except String UserOpData :=
  let fee := calculateUSDCGasFeeMicro env
  if maxGasFeeUSDCMicro < fee then
    .error "Gas fee exceeds maximum"
  else
    .ok ⟨walletAddress, fee⟩

inductive PEvent
  | gasEstimateCall
  | bundlerSubmit
  | opRecordCreate
deriving DecidableEq

/-- paymasterOperation rows keyed by userOpHash. -/
structure OpsStore where
  ops : List (String × String)
deriving DecidableEq

/-- POST /api/workers/:id/usdc-gas-transaction: builds the user operation
(the service throws on a fee above the maximum, caught into a 500
response), then submits to the bundler and records the pending paymaster
operation. -/
def usdcGasTransactionRoute (env : PaymasterEnv) (db : DB) (store : OpsStore)
    (workerId : ℕ) (maxGasFeeUSDCMicro : ℤ) :
    HttpResponse × OpsStore × List PEvent :=
  match lookupWorkerById db workerId with
  | none => (⟨404, some "WORKER_NOT_FOUND"⟩, store, [])
  | some w =>
    match w.walletId with
    | none => (⟨404, some "WORKER_NOT_FOUND"⟩, store, [])
    | some wallet =>
      match createUserOperationWithUSDCGas env wallet maxGasFeeUSDCMicro with
      | .error _ =>
        (⟨500, some "USDC_GAS_TRANSACTION_ERROR"⟩, store, [PEvent.gasEstimateCall])
      | .ok _ =>
        (⟨200, none⟩, ⟨store.ops ++ [(env.bundlerHash, "pending")]⟩,
         [PEvent.gasEstimateCall, PEvent.bundlerSubmit, PEvent.opRecordCreate])

/-! ## CCTP attestation polling

`getAttestation` answers the attestation when the service returns one,
null both when the response has no attestation and when the service
answers 404 (not yet available), and throws on other errors.
`monitorTransfer` polls it in a bounded while loop, sleeping 30 seconds
after every unanswered poll (an error iteration is caught and skips the
sleep), and throws a timeout error once the attempt budget is spent.
-/

inductive AttestationServiceResp
  | payloadWithAtt (attestation : String)
  | payloadNoAtt
  | http404
  | httpErr (msg : String)
deriving DecidableEq

/-- CCTPService.getAttestation on one service response. -/
def getAttestation (resp : AttestationServiceResp) : Except String (Option String) :=
  match resp with
  | .payloadWithAtt a => .ok (some a)
  | .payloadNoAtt => .ok none
  | .http404 => .ok none
  | .httpErr m => .error m

structure MonitorTrace where
  polls : ℕ
  sleepsMs : List ℕ
deriving DecidableEq

/-- The transfer descriptor monitorTransfer returns on success carries the
attestation and status attested (never completed). -/
structure MonitorResult where
  attestation : String
  status : String
deriving DecidableEq

/-- The while loop of monitorTransfer: fuel counts the remaining attempts,
i is the current attempt index into the oracle of service responses. -/
def monitorLoop (oracle : ℕ → AttestationServiceResp) (i : ℕ) :
    ℕ → Except String MonitorResult × MonitorTrace
  | 0 => (.error "Transfer monitoring timeout", ⟨0, []⟩)
  | fuel + 1 =>
    match getAttestation (oracle i) with
    | .ok (some a) => (.ok ⟨a, "attested"⟩, ⟨1, []⟩)
    | .ok none =>
      let rest := monitorLoop oracle (i + 1) fuel
      (rest.1, ⟨rest.2.polls + 1, 30000 :: rest.2.sleepsMs⟩)
    | .error _ =>
      let rest := monitorLoop oracle (i + 1) fuel
      (rest.1, ⟨rest.2.polls + 1, rest.2.sleepsMs⟩)

/-- CCTPService.monitorTransfer. -/
def monitorTransfer (oracle : ℕ → AttestationServiceResp) (maxAttempts : ℕ) :
    Except String MonitorResult × MonitorTrace :=
  monitorLoop oracle 0 maxAttempts

/-! ## Helpers and concrete fixtures used by the theorems below -/

def exceptToOption : Except String String → Option String
  | .ok a => some a
  | .error _ => none

/-- The error code of a failed service call (empty string on success). -/
def errCodeOf {α : Type} (x : Except PayrollError α) : String :=
  match x with
  | .error e => e.code
  | .ok _ => ""

/-- The totalAmount (in micro USDC) stored on a created run. -/
def createdTotalMicro (x : Except PayrollError CreateResult) : ℤ :=
  match x with
  | .ok r => r.run.totalMicro
  | .error _ => -1

/-- A gateway environment whose provisioning calls all fail. -/
def noProvisioning : CreateEnv :=
  ⟨fun _ => .error "gateway down", fun _ => .error "gateway down", 0⟩

def emptyDB : DB := ⟨[], [], 0⟩

/-- Execution environment where every gasless transfer succeeds and every
Circle payout fails. -/
def envW : ExecEnv :=
  ⟨fun _ => .ok ⟨"gs-1", some "0xhash"⟩, fun _ => .error "payout rejected", 42⟩

/-- Worker 1 has a wallet, worker 2 has neither wallet nor recipient. -/
def dbW : DB :=
  ⟨[⟨1, "A", "a@x.com", none, some "w1"⟩, ⟨2, "B", "b@x.com", none, none⟩],
   [⟨3, "admin-1", PayrollRunStatus.pending, 7000000, 2, none,
     [⟨10, 1, 5000000, "ethereum", PayoutStatus.pending, none, none, none, none⟩,
      ⟨11, 2, 2000000, "base", PayoutStatus.pending, none, none, none, none⟩]⟩],
   20⟩

def runW : RunRec :=
  ⟨3, "admin-1", PayrollRunStatus.pending, 7000000, 2, none,
   [⟨10, 1, 5000000, "ethereum", PayoutStatus.pending, none, none, none, none⟩,
    ⟨11, 2, 2000000, "base", PayoutStatus.pending, none, none, none, none⟩]⟩

/-- A run that has already left PENDING. -/
def dbCompletedRun : DB :=
  ⟨[], [⟨1, "admin-1", PayrollRunStatus.completed, 0, 0, some 5,
        [⟨2, 9, 1000000, "base", PayoutStatus.completed, some "p9", none, none, some 5⟩]⟩], 30⟩

def dbTerminalItem : DB :=
  ⟨[⟨1, "A", "a@x.com", some "r1", none⟩],
   [⟨5, "admin-1", PayrollRunStatus.completed, 1000000, 1, some 3,
     [⟨6, 1, 1000000, "ethereum", PayoutStatus.completed, some "p1", some "0xabc", none, some 3⟩]⟩],
   10⟩

def execEnvNoop : ExecEnv := ⟨fun _ => .error "unused", fun _ => .error "unused", 7⟩

def dbPendingTransfer : WebhookDB :=
  ⟨emptyDB, [⟨1, "m1", none, "PENDING", none, none⟩], []⟩

def rowA : RowReq := ⟨"A", "a@x.com", 10500000, "ethereum"⟩

/-! ## Theorems -/

set_option maxRecDepth 100000 in
/-- C3: the run total is computed by binary64 summation (parseFloat and
toFixed) and drifts from the exact decimal sum: for the valid two-row
batch with amounts 8589934592 and 0.000001 USDC, createPayrollRun stores
totalAmount 8589934592.000002 while the exact decimal sum of the item
amounts is 8589934592.000001. -/
theorem totalAmount_binary64_drift :
    createdTotalMicro (createPayrollRun noProvisioning emptyDB "admin-1"
        [⟨"A", "a@x.com", 8589934592000000, "ethereum"⟩,
         ⟨"B", "b@x.com", 1, "base"⟩]).1 = 8589934592000002 ∧
    exactSumMicro [8589934592000000, 1] = 8589934592000001 ∧
    totalAmountMicro [8589934592000000, 1] ≠ exactSumMicro [8589934592000000, 1] := by
  refine ⟨by decide, by decide, by decide⟩

/-- C4: updatePayoutStatus overwrites unconditionally, so a webhook whose
status string is not a recognized terminal word (here the stale duplicate
"processing") moves an item that is already COMPLETED back to PROCESSING:
the terminal status is not preserved. -/
theorem updatePayoutStatus_overwrites_terminal :
    (findItemByPayoutId dbTerminalItem "p1").map ItemRec.status =
      some PayoutStatus.completed ∧
    findItemByPayoutId (updatePayoutStatus dbTerminalItem "p1" "processing" none 9) "p1" =
      some ⟨6, 1, 1000000, "ethereum", PayoutStatus.processing, some "p1",
            some "0xabc", none, some 3⟩ := by
  refine ⟨by decide, by decide⟩

/-- C10: the create request schema accepts an empty workers list, the
created run has totalWorkers 0, totalAmount 0 and no items, and executing
it terminates with final status COMPLETED (zero failures branch) and a
completion timestamp. -/
theorem create_execute_empty_batch :
    createRequestAccepted [] = true ∧
    (createPayrollRun noProvisioning emptyDB "admin-1" []).1 =
      .ok ⟨⟨0, "admin-1", PayrollRunStatus.pending, 0, 0, none, []⟩, []⟩ ∧
    (executePayrollRun execEnvNoop
        (createPayrollRun noProvisioning emptyDB "admin-1" []).2.1 0).1 =
      .ok ⟨0, PayrollRunStatus.completed, []⟩ ∧
    lookupRun (executePayrollRun execEnvNoop
        (createPayrollRun noProvisioning emptyDB "admin-1" []).2.1 0).2.1 0 =
      some ⟨0, "admin-1", PayrollRunStatus.completed, 0, 0, some 7, []⟩ := by
  refine ⟨by decide, by decide, by decide, by decide⟩

/-- C2 counterexample: executing a run that exists but is not PENDING
fails with statusCode 400 and message about the pending status, but its
error code equals the code of the run-not-found failure
(PAYROLL_RUN_NOT_FOUND in both cases): there is no distinct InvalidState
code. -/
theorem execute_invalidState_code_not_distinct :
    (executePayrollRun execEnvNoop dbCompletedRun 1).1 =
      .error ⟨"Payroll run is not in pending status", "PAYROLL_RUN_NOT_FOUND", 400⟩ ∧
    (executePayrollRun execEnvNoop emptyDB 1).1 =
      .error ⟨"Payroll run not found", "PAYROLL_RUN_NOT_FOUND", 404⟩ ∧
    errCodeOf (executePayrollRun execEnvNoop dbCompletedRun 1).1 =
      errCodeOf (executePayrollRun execEnvNoop emptyDB 1).1 := by
  refine ⟨by decide, by decide, by decide⟩

/-- C5 counterexample: the cctp and gas-station webhook routes never
compute an HMAC and never answer 401 with an invalid-signature error: a
cctp request with no signature at all is acknowledged 200 when its body
reports no attested status, the attested variant is answered 500 (the
unbound prisma reference throws), and every gas-station request is
answered 500 — none of these is the 401 invalid-signature rejection the
claim requires for a missing signature. -/
theorem cctp_webhook_no_signature_rejection :
    cctpWebhookHandler dbPendingTransfer ⟨none, "m1", none, "pending"⟩ =
      (⟨200, none⟩, dbPendingTransfer) ∧
    cctpWebhookHandler dbPendingTransfer ⟨none, "m1", some "att-1", "attested"⟩ =
      (⟨500, some "CCTP_WEBHOOK_ERROR"⟩, dbPendingTransfer) ∧
    gasStationWebhookHandler dbPendingTransfer ⟨none, "t1", "completed", none, none⟩ =
      (⟨500, some "GAS_STATION_WEBHOOK_ERROR"⟩, dbPendingTransfer) ∧
    (cctpWebhookHandler dbPendingTransfer ⟨none, "m1", none, "pending"⟩).1.statusCode ≠ 401 := by
  refine ⟨by decide, by decide, by decide, by decide⟩

/-- C7 counterexample: creating a run with one new worker issues the
external recipient and wallet provisioning calls while the transaction is
open, between txBegin and txCommit, not outside the transaction. -/
theorem create_extCall_inside_transaction :
    extCallInsideTx (createPayrollRun noProvisioning emptyDB "admin-1" [rowA]).2.2 = true := by
  decide

/-- Helper for C9: when no attempt ever yields an attestation, the loop
spends its whole budget, each sleep is 30000 ms, and ends in the timeout
error. -/
theorem monitorLoop_never_attested (oracle : ℕ → AttestationServiceResp)
    (hnever : ∀ i a, getAttestation (oracle i) ≠ .ok (some a)) :
    ∀ (fuel i : ℕ),
      (monitorLoop oracle i fuel).1 = .error "Transfer monitoring timeout" ∧
      (monitorLoop oracle i fuel).2.polls = fuel ∧
      ∀ d ∈ (monitorLoop oracle i fuel).2.sleepsMs, d = 30000 := by
  intro fuel
  induction fuel with
  | zero => intro i; simp [monitorLoop]
  | succ n ih =>
    intro i
    cases h : getAttestation (oracle i) with
    | ok o =>
      cases o with
      | some a => exact absurd h (hnever i a)
      | none =>
        have hr := ih (i + 1)
        simp only [monitorLoop, h]
        refine ⟨hr.1, by simp [hr.2.1], ?_⟩
        intro d hd
        rcases List.mem_cons.mp hd with hd | hd
        · exact hd
        · exact hr.2.2 d hd
    | error m =>
      have hr := ih (i + 1)
      simp only [monitorLoop, h]
      exact ⟨hr.1, by simp [hr.2.1], hr.2.2⟩

/-- C9: for a message whose attestation the service never returns, the
monitoring loop polls exactly maxAttempts times, every sleep between polls
is the fixed 30-second interval, it then fails with the distinct timeout
error and never returns an attested result (so the transfer cannot be
marked COMPLETED from it); a 404 from the attestation service is reported
as null (not yet available), which is not an error. -/
theorem monitorTransfer_bounded_timeout
    (oracle : ℕ → AttestationServiceResp) (maxAttempts : ℕ)
    (hnever : ∀ i a, getAttestation (oracle i) ≠ .ok (some a)) :
    (monitorTransfer oracle maxAttempts).1 = .error "Transfer monitoring timeout" ∧
    (monitorTransfer oracle maxAttempts).2.polls = maxAttempts ∧
    (∀ d ∈ (monitorTransfer oracle maxAttempts).2.sleepsMs, d = 30000) ∧
    (∀ r : MonitorResult, (monitorTransfer oracle maxAttempts).1 ≠ .ok r) ∧
    getAttestation AttestationServiceResp.http404 = .ok none ∧
    (∀ m, getAttestation AttestationServiceResp.http404 ≠ .error m) := by
  have key := monitorLoop_never_attested oracle hnever maxAttempts 0
  refine ⟨key.1, key.2.1, key.2.2, ?_, rfl, by intro m h; simp [getAttestation] at h⟩
  intro r h
  rw [monitorTransfer] at h
  rw [key.1] at h
  exact Except.noConfusion h

/-- C9 witness: a service that always answers 404 makes the loop time out
after exactly 3 polls when given a budget of 3 attempts. -/
theorem monitorTransfer_bounded_timeout_witness :
    (monitorTransfer (fun _ => AttestationServiceResp.http404) 3).1 =
      .error "Transfer monitoring timeout" ∧
    (monitorTransfer (fun _ => AttestationServiceResp.http404) 3).2.polls = 3 := by
  have h := monitorTransfer_bounded_timeout (fun _ => AttestationServiceResp.http404) 3
    (by intro i a h; simp [getAttestation] at h)
  exact ⟨h.1, h.2.1⟩

/-- C8: when the computed USDC gas fee exceeds the caller-supplied maximum,
createUserOperationWithUSDCGas throws, the route answers 500, the bundler
is never contacted, and no paymaster operation record is created (the
store is unchanged). -/
theorem usdcGasFee_exceeds_max_rejected
    (env : PaymasterEnv) (db : DB) (store : OpsStore) (workerId : ℕ)
    (maxFeeMicro : ℤ) (w : WorkerRec) (wallet : String)
    (hw : lookupWorkerById db workerId = some w)
    (hwallet : w.walletId = some wallet)
    (hfee : maxFeeMicro < calculateUSDCGasFeeMicro env) :
    createUserOperationWithUSDCGas env wallet maxFeeMicro =
      .error "Gas fee exceeds maximum" ∧
    usdcGasTransactionRoute env db store workerId maxFeeMicro =
      (⟨500, some "USDC_GAS_TRANSACTION_ERROR"⟩, store, [PEvent.gasEstimateCall]) ∧
    PEvent.bundlerSubmit ∉ (usdcGasTransactionRoute env db store workerId maxFeeMicro).2.2 ∧
    PEvent.opRecordCreate ∉ (usdcGasTransactionRoute env db store workerId maxFeeMicro).2.2 := by
  have hop : createUserOperationWithUSDCGas env wallet maxFeeMicro =
      .error "Gas fee exceeds maximum" := by
    unfold createUserOperationWithUSDCGas
    rw [if_pos hfee]
  have hroute : usdcGasTransactionRoute env db store workerId maxFeeMicro =
      (⟨500, some "USDC_GAS_TRANSACTION_ERROR"⟩, store, [PEvent.gasEstimateCall]) := by
    unfold usdcGasTransactionRoute
    rw [hw]
    simp only [hwallet, hop]
  refine ⟨hop, hroute, ?_, ?_⟩ <;> rw [hroute] <;> simp

def pmEnvW : PaymasterEnv := ⟨⟨100000, 1000000000, 0⟩, ⟨2500, 1⟩, ⟨1, 10⟩, "0xop"⟩

def dbPm : DB := ⟨[⟨4, "W", "w@x.com", none, some "wal-1"⟩], [], 5⟩

/-- C8 witness: a 0.275 USDC computed fee against a 0.1 USDC ceiling is
rejected with a 500 and an untouched operation store. -/
theorem usdcGasFee_exceeds_max_rejected_witness :
    usdcGasTransactionRoute pmEnvW dbPm ⟨[]⟩ 4 100000 =
      (⟨500, some "USDC_GAS_TRANSACTION_ERROR"⟩, ⟨[]⟩, [PEvent.gasEstimateCall]) :=
  (usdcGasFee_exceeds_max_rejected pmEnvW dbPm ⟨[]⟩ 4 100000
    ⟨4, "W", "w@x.com", none, some "wal-1"⟩ "wal-1" rfl rfl (by decide)).2.1

/-- C5 amended: only the Circle webhook route verifies the HMAC signature:
any request whose signature is missing or does not match the HMAC of its
raw payload is answered 401 INVALID_SIGNATURE with the ledger untouched.
The cctp, gas-station and paymaster routes ignore the signature entirely
(their behavior is identical for any two signature values) and never
answer 401: cctp acknowledges a non-attested body with 200 and otherwise
fails with 500 at the unbound prisma reference, while gas-station and
paymaster always answer 500 — in every case without mutating any ledger
record. -/
theorem webhook_signature_gating
    (hmac : String → String → String) (secret : String) (now : ℕ)
    (db : WebhookDB) (req : CircleWebhookRequest)
    (hbad : verifyWebhookSignature hmac secret req.rawPayload req.signature = false) :
    circleWebhookHandler hmac secret now db req = (⟨401, some "INVALID_SIGNATURE"⟩, db) ∧
    (∀ (db2 : WebhookDB) (r : CctpWebhookRequest) (s t : Option String),
      cctpWebhookHandler db2 { r with signature := s } =
        cctpWebhookHandler db2 { r with signature := t }) ∧
    (∀ (db2 : WebhookDB) (g : GasStationWebhookRequest) (s t : Option String),
      gasStationWebhookHandler db2 { g with signature := s } =
        gasStationWebhookHandler db2 { g with signature := t }) ∧
    (∀ (db2 : WebhookDB) (r : CctpWebhookRequest),
      (cctpWebhookHandler db2 r).2 = db2 ∧
      (cctpWebhookHandler db2 r).1.statusCode ≠ 401) ∧
    (∀ (db2 : WebhookDB) (g : GasStationWebhookRequest),
      gasStationWebhookHandler db2 g = (⟨500, some "GAS_STATION_WEBHOOK_ERROR"⟩, db2)) ∧
    (∀ (db2 : WebhookDB) (p : PaymasterWebhookRequest),
      paymasterWebhookHandler db2 p = (⟨500, some "PAYMASTER_WEBHOOK_ERROR"⟩, db2)) := by
  refine ⟨?_, ?_, ?_, ?_, ?_, ?_⟩
  · unfold circleWebhookHandler
    rw [hbad]
    simp
  · intro db2 r s t; rfl
  · intro db2 g s t; rfl
  · intro db2 r
    simp only [cctpWebhookHandler]
    constructor
    · split <;> rfl
    · split <;> simp
  · intro db2 g; rfl
  · intro db2 p; rfl

/-- C5 amended witness: a signature that is the correct HMAC of a
different payload is rejected with 401 and no state change on the Circle
route. -/
theorem webhook_signature_gating_witness :
    circleWebhookHandler (fun _ p => p) "secret" 1 dbPendingTransfer
      ⟨some "sha256=other-payload", "payload", CircleEvent.payoutsCompleted "p1" none⟩ =
      (⟨401, some "INVALID_SIGNATURE"⟩, dbPendingTransfer) :=
  (webhook_signature_gating (fun _ p => p) "secret" 1 dbPendingTransfer
    ⟨some "sha256=other-payload", "payload", CircleEvent.payoutsCompleted "p1" none⟩
    (by decide)).1

/-- C2 amended: Execute on an unknown run id fails with the 404 not-found
error and leaves the store untouched; Execute on a run that has left
PENDING (for example after a first Execute) fails with statusCode 400 and
the not-in-pending message, produces no events (no item is marked
PROCESSING and nothing is dispatched) and changes no item of any run —
though its error carries the same PAYROLL_RUN_NOT_FOUND code as the
not-found failure, and the catch block overwrites the run status with
FAILED. -/
theorem execute_precondition_failures
    (env : ExecEnv) (db : DB) (runId : ℕ) :
    (lookupRun db runId = none →
      executePayrollRun env db runId =
        (.error ⟨"Payroll run not found", "PAYROLL_RUN_NOT_FOUND", 404⟩, db, [])) ∧
    (∀ run, lookupRun db runId = some run → run.status ≠ PayrollRunStatus.pending →
      executePayrollRun env db runId =
        (.error ⟨"Payroll run is not in pending status", "PAYROLL_RUN_NOT_FOUND", 400⟩,
         updateRun db { run with status := PayrollRunStatus.failed }, []) ∧
      ∀ r2 ∈ (executePayrollRun env db runId).2.1.runs, ∃ r ∈ db.runs, r2.items = r.items) := by
  constructor
  · intro h
    unfold executePayrollRun
    rw [h]
  · intro run hfind hst
    have heq : executePayrollRun env db runId =
        (.error ⟨"Payroll run is not in pending status", "PAYROLL_RUN_NOT_FOUND", 400⟩,
         updateRun db { run with status := PayrollRunStatus.failed }, []) := by
      unfold executePayrollRun
      rw [hfind]
      simp [hst]
    refine ⟨heq, ?_⟩
    rw [heq]
    intro r2 hr2
    simp only [updateRun, List.mem_map] at hr2
    obtain ⟨r, hrmem, hrfr⟩ := hr2
    by_cases hcase : (r.id == run.id) = true
    · rw [if_pos hcase] at hrfr
      exact ⟨run, List.mem_of_find?_eq_some hfind, by rw [← hrfr]⟩
    · rw [if_neg hcase] at hrfr
      exact ⟨r, hrmem, by rw [← hrfr]⟩

def runCompletedW : RunRec :=
  ⟨1, "admin-1", PayrollRunStatus.completed, 0, 0, some 5,
   [⟨2, 9, 1000000, "base", PayoutStatus.completed, some "p9", none, none, some 5⟩]⟩

/-- C2 amended witness: executing the already-completed run of
dbCompletedRun fails with the 400 state error, an empty event trace, and
untouched items. -/
theorem execute_precondition_failures_witness :
    executePayrollRun execEnvNoop dbCompletedRun 1 =
      (.error ⟨"Payroll run is not in pending status", "PAYROLL_RUN_NOT_FOUND", 400⟩,
       updateRun dbCompletedRun { runCompletedW with status := PayrollRunStatus.failed }, []) :=
  ((execute_precondition_failures execEnvNoop dbCompletedRun 1).2 runCompletedW rfl
    (by decide)).1

/-- Dispatch success of one item agrees with the boolean result row of
processItem. -/
theorem processItem_result_eq (env : ExecEnv) (db : DB) (it : ItemRec) :
    (processItem env (workerFor db it) it).2.1 = itemSucceeds env db it := by
  unfold processItem itemSucceeds
  cases h1 : (workerFor db it).walletId with
  | some wid => cases h2 : env.gaslessTransfer it.id <;> simp [h2]
  | none =>
    cases h3 : (workerFor db it).recipientId with
    | some rid => cases h4 : env.circlePayout it.id <;> simp [h4]
    | none => simp

/-- The stored item after dispatch is COMPLETED exactly on success and
FAILED exactly on failure. -/
theorem dispatchedItem_status_eq (env : ExecEnv) (db : DB) (it : ItemRec) :
    (dispatchedItem env db it).status =
      (if itemSucceeds env db it then PayoutStatus.completed else PayoutStatus.failed) := by
  unfold dispatchedItem processItem itemSucceeds
  cases h1 : (workerFor db it).walletId with
  | some wid => cases h2 : env.gaslessTransfer it.id <;> simp [h2]
  | none =>
    cases h3 : (workerFor db it).recipientId with
    | some rid => cases h4 : env.circlePayout it.id <;> simp [h4]
    | none => simp

/-- The item loop maps dispatch over the items and collects the result
rows. -/
theorem processItems_components (env : ExecEnv) (db : DB) (l : List ItemRec) :
    (processItems env db l).1 = l.map (dispatchedItem env db) ∧
    (processItems env db l).2.1 = l.map (itemSucceeds env db) := by
  induction l with
  | nil => simp [processItems]
  | cons a l ih =>
    refine ⟨?_, ?_⟩
    · simp only [processItems, List.map_cons]
      rw [ih.1]
      rfl
    · simp only [processItems, List.map_cons]
      rw [ih.2]
      rw [processItem_result_eq]

/-- The final-status computation over the result rows equals the
at-least-one-success rule for a nonempty batch. -/
theorem finalStatus_any (bs : List Bool) (h : bs ≠ []) :
    (if bs.count false = 0 then PayrollRunStatus.completed
     else if bs.count true = 0 then PayrollRunStatus.failed
     else PayrollRunStatus.completed) =
      (if bs.any id then PayrollRunStatus.completed else PayrollRunStatus.failed) := by
  by_cases hany : bs.any id = true
  · have htrue : true ∈ bs := by
      rcases List.any_eq_true.mp hany with ⟨b, hb, hbid⟩
      cases b
      · simp at hbid
      · exact hb
    have hct : bs.count true ≠ 0 := by
      intro h0
      exact absurd htrue (List.count_eq_zero.mp h0)
    by_cases hcf : bs.count false = 0 <;> simp [hcf, hct, hany]
  · have hall : ∀ b ∈ bs, b = false := by
      intro b hb
      cases b
      · rfl
      · exact absurd (List.any_eq_true.mpr ⟨true, hb, rfl⟩) hany
    have hfalse : false ∈ bs := by
      cases bs with
      | nil => exact absurd rfl h
      | cons x xs =>
        have hx := hall x (by simp)
        rw [← hx]
        simp
    have hcf : bs.count false ≠ 0 := by
      intro h0
      exact absurd hfalse (List.count_eq_zero.mp h0)
    have hct : bs.count true = 0 := by
      refine List.count_eq_zero.mpr ?_
      intro hmem
      exact Bool.noConfusion (hall true hmem)
    simp [hcf, hct, hany]

/-- Replacing the found run by record r2 (carrying the same id) makes the
lookup return r2. -/
theorem find?_update_list (l : List RunRec) (runId : ℕ) (run r2 : RunRec)
    (h : l.find? (fun x => x.id == runId) = some run) (hid : r2.id = runId) :
    (l.map (fun x => if x.id == r2.id then r2 else x)).find? (fun x => x.id == runId) =
      some r2 := by
  induction l with
  | nil => simp at h
  | cons x xs ih =>
    by_cases hx : (x.id == runId) = true
    · have hxid : x.id = runId := by simpa using hx
      rw [List.map_cons]
      rw [if_pos (by rw [hid]; exact hx)]
      exact List.find?_cons_of_pos _ (by simp [hid])
    · rw [List.find?_cons_of_neg _ (by simp_all)] at h
      rw [List.map_cons]
      by_cases hxr : (x.id == r2.id) = true
      · exact absurd (by rw [← hid]; exact hxr) hx
      · rw [if_neg hxr]
        rw [List.find?_cons_of_neg _ (by simp_all)]
        exact ih h

/-- Lookup after updateRun with a record carrying the looked-up id. -/
theorem lookupRun_updateRun (db : DB) (runId : ℕ) (run r2 : RunRec)
    (h : lookupRun db runId = some run) (hid : r2.id = runId) :
    lookupRun (updateRun db r2) runId = some r2 := by
  unfold lookupRun updateRun at *
  exact find?_update_list db.runs runId run r2 h hid

/-- C1: executing a PENDING run with at least one item completes with run
status COMPLETED when at least one item dispatch succeeds (even when
others fail) and FAILED when every dispatch fails; the completion
timestamp is stamped in both cases, each failed item is stored FAILED and
each successful item stored COMPLETED. -/
theorem executePayrollRun_final_status
    (env : ExecEnv) (db : DB) (runId : ℕ) (run : RunRec)
    (hfind : lookupRun db runId = some run)
    (hpend : run.status = PayrollRunStatus.pending)
    (hne : run.items ≠ []) :
    (executePayrollRun env db runId).1 =
      .ok ⟨runId,
           (if run.items.any (itemSucceeds env db) then PayrollRunStatus.completed
            else PayrollRunStatus.failed),
           run.items.map (itemSucceeds env db)⟩ ∧
    lookupRun (executePayrollRun env db runId).2.1 runId =
      some { run with
               status :=
                 if run.items.any (itemSucceeds env db) then PayrollRunStatus.completed
                 else PayrollRunStatus.failed
               completedAt := some env.now
               items := run.items.map (dispatchedItem env db) } ∧
    ∀ it, (dispatchedItem env db it).status =
      (if itemSucceeds env db it then PayoutStatus.completed else PayoutStatus.failed) := by
  have hrid : run.id = runId := by
    have h1 := hfind
    unfold lookupRun at h1
    have h2 := List.find?_some h1
    simpa using h2
  have hcomp := processItems_components env db run.items
  have hbs : run.items.map (itemSucceeds env db) ≠ [] := by
    simpa using hne
  have hfs := finalStatus_any (run.items.map (itemSucceeds env db)) hbs
  have hany : (run.items.map (itemSucceeds env db)).any id =
      run.items.any (itemSucceeds env db) := by
    induction run.items with
    | nil => rfl
    | cons a t ih =>
      simp only [List.map_cons, List.any_cons, ih]
      rfl
  rw [hany] at hfs
  have heq : executePayrollRun env db runId =
      (.ok ⟨runId,
            (if run.items.any (itemSucceeds env db) then PayrollRunStatus.completed
             else PayrollRunStatus.failed),
            run.items.map (itemSucceeds env db)⟩,
       updateRun (updateRun db { run with status := PayrollRunStatus.processing })
         { run with
             status :=
               if run.items.any (itemSucceeds env db) then PayrollRunStatus.completed
               else PayrollRunStatus.failed
             completedAt := some env.now
             items := run.items.map (dispatchedItem env db) },
       [EEvent.runStatus PayrollRunStatus.processing] ++
         (processItems env db run.items).2.2 ++
         [EEvent.runStatus
           (if run.items.any (itemSucceeds env db) then PayrollRunStatus.completed
            else PayrollRunStatus.failed)]) := by
    unfold executePayrollRun
    rw [hfind]
    simp [hpend, hcomp.1, hcomp.2, hfs]
  refine ⟨?_, ?_, dispatchedItem_status_eq env db⟩
  · rw [heq]
  · rw [heq]
    have h1 : lookupRun (updateRun db { run with status := PayrollRunStatus.processing })
        runId = some { run with status := PayrollRunStatus.processing } :=
      lookupRun_updateRun db runId run _ hfind hrid
    exact lookupRun_updateRun _ runId _ _ h1 hrid

/-- C1 witness: on the two-item run of dbW (one gasless success, one item
whose worker has no payment method), execution returns COMPLETED with
result rows [true, false]. -/
theorem executePayrollRun_final_status_witness :
    (executePayrollRun envW dbW 3).1 =
      .ok ⟨3,
           (if runW.items.any (itemSucceeds envW dbW) then PayrollRunStatus.completed
            else PayrollRunStatus.failed),
           runW.items.map (itemSucceeds envW dbW)⟩ ∧
    (if runW.items.any (itemSucceeds envW dbW) then PayrollRunStatus.completed
     else PayrollRunStatus.failed) = PayrollRunStatus.completed ∧
    runW.items.map (itemSucceeds envW dbW) = [true, false] := by
  refine ⟨(executePayrollRun_final_status envW dbW 3 runW rfl rfl (by decide)).1,
    by decide, by decide⟩

/-- C6: each item is dispatched through exactly one path: the gasless path
alone when the worker has a wallet (wallet takes precedence), the Circle
payout path alone when there is only a recipient, and no call at all when
neither is configured — in which case the item is marked FAILED with the
no-payment-method message; and the loop still produces one result row per
item, so such a failure aborts nothing. -/
theorem dispatch_path_selection
    (env : ExecEnv) (w : WorkerRec) (it : ItemRec) :
    (∀ wid, w.walletId = some wid →
      (processItem env w it).2.2.filter EEvent.isDispatchCall =
        [EEvent.gaslessCall it.id]) ∧
    (w.walletId = none → ∀ rid, w.recipientId = some rid →
      (processItem env w it).2.2.filter EEvent.isDispatchCall =
        [EEvent.circlePayoutCall it.id]) ∧
    (w.walletId = none → w.recipientId = none →
      (processItem env w it).2.2.filter EEvent.isDispatchCall = [] ∧
      (processItem env w it).1.status = PayoutStatus.failed ∧
      (processItem env w it).1.errorMessage =
        some "Worker has no wallet or recipient configured") ∧
    (∀ (db : DB) (items : List ItemRec),
      (processItems env db items).1.length = items.length) := by
  refine ⟨?_, ?_, ?_, ?_⟩
  · intro wid hw
    unfold processItem
    rw [hw]
    cases h2 : env.gaslessTransfer it.id <;>
      simp [List.filter, EEvent.isDispatchCall]
  · intro hw rid hr
    unfold processItem
    rw [hw, hr]
    cases h2 : env.circlePayout it.id <;>
      simp [List.filter, EEvent.isDispatchCall]
  · intro hw hr
    unfold processItem
    rw [hw, hr]
    simp [List.filter, EEvent.isDispatchCall]
  · intro db items
    induction items with
    | nil => rfl
    | cons a t ih => simp [processItems, ih]

/-- C6 witness: a worker without wallet or recipient yields a FAILED item
with the no-payment-method message, and a two-item batch still yields two
result rows. -/
theorem dispatch_path_selection_witness :
    (processItem envW ⟨2, "B", "b@x.com", none, none⟩
        ⟨11, 2, 2000000, "base", PayoutStatus.pending, none, none, none, none⟩).1.status =
      PayoutStatus.failed ∧
    (processItem envW ⟨2, "B", "b@x.com", none, none⟩
        ⟨11, 2, 2000000, "base", PayoutStatus.pending, none, none, none, none⟩).1.errorMessage =
      some "Worker has no wallet or recipient configured" ∧
    (processItems envW dbW runW.items).1.length = 2 := by
  have h := dispatch_path_selection envW ⟨2, "B", "b@x.com", none, none⟩
    ⟨11, 2, 2000000, "base", PayoutStatus.pending, none, none, none, none⟩
  have h3 := h.2.2.1 rfl rfl
  exact ⟨h3.2.1, h3.2.2, h.2.2.2 dbW runW.items⟩

/-- The create loop makes exactly one item per row. -/
theorem createRows_length (env : CreateEnv) :
    ∀ (rows : List RowReq) (db : DB),
      (createRows env db rows).2.1.length = rows.length := by
  intro rows
  induction rows with
  | nil => intro db; simp [createRows]
  | cons r rest ih =>
    intro db
    simp only [createRows]
    simp [ih]

/-- Every created item starts PENDING. -/
theorem createRows_status (env : CreateEnv) :
    ∀ (rows : List RowReq) (db : DB) (it : ItemRec),
      it ∈ (createRows env db rows).2.1 → it.status = PayoutStatus.pending := by
  intro rows
  induction rows with
  | nil => intro db it hit; simp [createRows] at hit
  | cons r rest ih =>
    intro db it hit
    simp only [createRows] at hit
    rcases List.mem_cons.mp hit with h | h
    · rw [h]
    · exact ih _ it h

/-- The create loop emits no transaction boundary events of its own. -/
theorem createRows_trace_no_tx (env : CreateEnv) :
    ∀ (rows : List RowReq) (db : DB) (e : CEvent),
      e ∈ (createRows env db rows).2.2 →
      e ≠ CEvent.txBegin ∧ e ≠ CEvent.txCommit := by
  intro rows
  induction rows with
  | nil => intro db e he; simp [createRows] at he
  | cons r rest ih =>
    intro db e he
    simp only [createRows] at he
    rw [List.mem_append, List.mem_append] at he
    rcases he with (he | he) | he
    · revert he
      cases hl : lookupWorkerByEmail db r.email with
      | some w => intro he; simp at he
      | none =>
        cases hrec : env.createRecipient r.email <;>
          cases hwal : env.createWallet db.nextId <;>
            (intro he; simp [hrec, hwal] at he) <;>
              (cases e <;> simp_all)
    · simp at he
      cases e <;> simp_all
    · exact ih _ e he

/-- Scanning events that contain no transaction boundary, from a state
inside the transaction, never records an outside external call. -/
theorem foldl_outsideStep_stable (l : List CEvent) (b : Bool)
    (h : ∀ e ∈ l, e ≠ CEvent.txBegin ∧ e ≠ CEvent.txCommit) :
    l.foldl outsideScanStep (true, b) = (true, b) := by
  induction l with
  | nil => rfl
  | cons x xs ih =>
    have hx := h x (by simp)
    have hstep : outsideScanStep (true, b) x = (true, b) := by
      cases x <;> simp_all [outsideScanStep, CEvent.isExternalCall]
    rw [List.foldl_cons, hstep]
    exact ih (fun e he => h e (by simp [he]))

/-- No external gateway call of createPayrollRun happens outside the
transaction window. -/
theorem create_trace_ext_only_inside (env : CreateEnv) (db : DB) (adminId : String)
    (rows : List RowReq) :
    extCallOutsideTx (createPayrollRun env db adminId rows).2.2 = false := by
  unfold createPayrollRun extCallOutsideTx
  simp only [List.foldl_append]
  have hA : List.foldl outsideScanStep (false, false)
      [CEvent.txBegin, CEvent.dbWrite "payrollRun.create"] = (true, false) := rfl
  rw [hA]
  rw [foldl_outsideStep_stable _ false (createRows_trace_no_tx env rows _)]
  rfl

/-- Appending after a list in which nothing is found searches the tail. -/
theorem find?_append_of_none {α : Type} (p : α → Bool) (l1 l2 : List α)
    (h : l1.find? p = none) : (l1 ++ l2).find? p = l2.find? p := by
  induction l1 with
  | nil => rfl
  | cons x xs ih =>
    by_cases hp : p x = true
    · rw [List.find?_cons_of_pos _ hp] at h
      exact Option.noConfusion h
    · rw [List.find?_cons_of_neg _ hp] at h
      rw [List.cons_append, List.find?_cons_of_neg _ hp]
      exact ih h

/-- Updating the last-appended worker by id rewrites only it when every
other id differs. -/
theorem map_update_append (ws : List WorkerRec) (wOld wNew : WorkerRec)
    (hid : wOld.id = wNew.id) (hids : ∀ x ∈ ws, x.id ≠ wNew.id) :
    (ws ++ [wOld]).map (fun x => if x.id == wNew.id then wNew else x) = ws ++ [wNew] := by
  induction ws with
  | nil => simp [hid]
  | cons x xs ih =>
    have hx : ¬ (x.id == wNew.id) = true := by simpa using hids x (by simp)
    simp only [List.cons_append, List.map_cons, if_neg hx]
    rw [ih (fun y hy => hids y (by simp [hy]))]

/-- Mapping a function that fixes every element is the identity. -/
theorem map_id_on (ws : List WorkerRec) (f : WorkerRec → WorkerRec)
    (h : ∀ x ∈ ws, f x = x) : ws.map f = ws := by
  induction ws with
  | nil => rfl
  | cons x xs ih =>
    rw [List.map_cons, h x (by simp), ih (fun y hy => h y (by simp [hy]))]

/-- One fresh row: the worker row is created and retained with exactly the
resources whose provisioning call succeeded. -/
theorem createRows_singleton_fresh (env : CreateEnv) (db : DB) (row : RowReq)
    (hfresh : lookupWorkerByEmail db row.email = none)
    (hids : ∀ x ∈ db.workers, x.id ≠ db.nextId) :
    (createRows env db [row]).1.workers =
      db.workers ++ [⟨db.nextId, row.name, row.email,
        exceptToOption (env.createRecipient row.email),
        exceptToOption (env.createWallet db.nextId)⟩] := by
  simp only [createRows]
  rw [hfresh]
  cases hrec : env.createRecipient row.email <;>
    cases hwal : env.createWallet db.nextId <;>
      simp [hrec, hwal, updateWorker, exceptToOption] <;>
        (apply map_id_on
         intro x hx
         simp [Function.comp, hids x hx])

/-- C7 amended: run creation always succeeds with one PENDING item per row
for every outcome of the provisioning oracles (failures are only logged),
a newly created worker row is retained carrying exactly the resources
whose provisioning call succeeded (none when it failed), and the external
gateway provisioning calls are issued inside the transaction window
(between txBegin and txCommit), not outside the transaction. -/
theorem create_best_effort_provisioning_in_tx
    (env : CreateEnv) (db : DB) (adminId : String) (rows : List RowReq) (row : RowReq)
    (hfresh : lookupWorkerByEmail db row.email = none)
    (hids : ∀ w ∈ db.workers, w.id < db.nextId) :
    (∃ res, (createPayrollRun env db adminId rows).1 = .ok res ∧
      res.run.status = PayrollRunStatus.pending ∧
      res.run.totalWorkers = rows.length ∧
      res.items.length = rows.length ∧
      ∀ it ∈ res.items, it.status = PayoutStatus.pending) ∧
    extCallOutsideTx (createPayrollRun env db adminId rows).2.2 = false ∧
    ∃ w, lookupWorkerByEmail (createPayrollRun env db adminId [row]).2.1 row.email = some w ∧
      w.name = row.name ∧ w.email = row.email ∧
      w.recipientId = exceptToOption (env.createRecipient row.email) ∧
      w.walletId = exceptToOption (env.createWallet (db.nextId + 1)) := by
  refine ⟨⟨_, rfl, rfl, rfl, createRows_length env rows _,
    fun it hit => createRows_status env rows _ it hit⟩,
    create_trace_ext_only_inside env db adminId rows, ?_⟩
  have hids0 : ∀ x ∈ db.workers, x.id ≠ db.nextId + 1 := by
    intro x hx
    have := hids x hx
    omega
  have hworkers : (createPayrollRun env db adminId [row]).2.1.workers =
      db.workers ++ [⟨db.nextId + 1, row.name, row.email,
        exceptToOption (env.createRecipient row.email),
        exceptToOption (env.createWallet (db.nextId + 1))⟩] := by
    simp only [createPayrollRun, updateRun]
    exact createRows_singleton_fresh env _ row hfresh hids0
  refine ⟨⟨db.nextId + 1, row.name, row.email,
    exceptToOption (env.createRecipient row.email),
    exceptToOption (env.createWallet (db.nextId + 1))⟩, ?_, rfl, rfl, rfl, rfl⟩
  unfold lookupWorkerByEmail
  rw [hworkers]
  rw [find?_append_of_none _ _ _ hfresh]
  simp

/-- C7 amended witness: with both provisioning calls failing, the run is
still created, no external call happens outside the transaction, and the
fresh worker is retained with no recipient and no wallet. -/
theorem create_best_effort_provisioning_in_tx_witness :
    extCallOutsideTx (createPayrollRun noProvisioning emptyDB "admin-1" [rowA]).2.2 = false ∧
    ∃ w, lookupWorkerByEmail
        (createPayrollRun noProvisioning emptyDB "admin-1" [rowA]).2.1 rowA.email = some w ∧
      w.name = rowA.name ∧ w.email = rowA.email ∧
      w.recipientId = exceptToOption (noProvisioning.createRecipient rowA.email) ∧
      w.walletId = exceptToOption (noProvisioning.createWallet 1) := by
  have h := create_best_effort_provisioning_in_tx noProvisioning emptyDB "admin-1"
    [rowA] rowA rfl (by intro w hw; simp [emptyDB] at hw)
  exact ⟨h.2.1, h.2.2⟩
